import Mathlib

/-!
Shallow embedding of parts of the `vtds-cluster-kvm` repository
(`vtds_cluster_kvm/private/cluster.py`, `.../common.py` and
`.../scripts/deploy_cluster_to_blade.py`) together with theorems that
settle the frozen claims about it.  Python dictionaries are modelled by
explicit fields or association lists, Python lists by `List`, machine
integers by `Nat`/`Int`, fallible code by `Except`, and randomness by an
oracle argument.
-/

/-! ## `instance_range` (deploy_cluster_to_blade.py, lines 461-485)

`instance_range(node_class, blade_instance)` reads `node_count` and
`host_blade.instance_capacity` from the node class and computes a
half-open range of node instances hosted on the given blade instance.
The two config reads are passed here as the `Nat` arguments
`node_count` and `capacity`. -/

def instance_range (node_count capacity blade_instance : Nat) : Nat × Nat :=
  let start := blade_instance * capacity
  let start := if start < node_count then start else node_count
  let e := blade_instance * capacity + capacity
  let e := if e < node_count then e else node_count
  (start, e)

/-- Membership of a node instance `i` in the half-open range computed by
`instance_range` for blade instance `b`. -/
def inInstanceRange (node_count capacity b i : Nat) : Prop :=
  (instance_range node_count capacity b).1 ≤ i ∧
    i < (instance_range node_count capacity b).2

instance (n k b i : Nat) : Decidable (inInstanceRange n k b i) := by
  unfold inInstanceRange; infer_instance

/-! ## `Common.node_host_blade` (common.py, lines 261-278)

The Python code is

    if instance < 0: raise ContextualError(...)
    host_blade_class = self.__host_blade_class(node_type)
    instance_capacity = int(
        host_blade_class.get('host_blade', {}).get('instance_capacity', 1))
    return (host_blade_class, instance / instance_capacity)

`__host_blade_class` returns `node.get('host_blade', {}).get('blade_class',
None)` (a string, with an error when it is missing).  The subsequent
`host_blade_class.get(...)` is an attribute access on that string, and
Python 3 `/` on integers is true (float) division.  We model the small
dynamic fragment of Python needed to capture this faithfully. -/

inductive PyVal where
  | pstr (s : String)
  | pint (n : Int)
  /-- True-division result `num / den` of two integers (a Python float). -/
  | pfloat (num den : Int)
  | pdict (entries : List (String × PyVal))
  | pnone
  deriving Repr

inductive PyErr where
  /-- `ContextualError` raised by the vTDS code itself. -/
  | contextual (msg : String)
  /-- Python `AttributeError` (for example `.get` on a non-dict). -/
  | attributeError (msg : String)
  deriving DecidableEq, Repr

/-- Python `d.get(key, default)`: defined on dicts, an `AttributeError`
on every other value. -/
def pyGet (v : PyVal) (key : String) (default : PyVal) : Except PyErr PyVal :=
  match v with
  | .pdict entries =>
      match entries.find? (fun e => e.1 == key) with
      | some e => .ok e.2
      | none => .ok default
  | _ => .error (.attributeError "object has no attribute get")

/-- Python `int(v)` restricted to the values that appear here. -/
def pyInt (v : PyVal) : Except PyErr PyVal :=
  match v with
  | .pint n => .ok (.pint n)
  | _ => .error (.contextual "int() of a non-integer value")

/-- Embeds `Common.__host_blade_class` (common.py lines 142-154): look up
`host_blade.blade_class` in the node class and error when it is absent. -/
def hostBladeClassOf (node : PyVal) : Except PyErr PyVal := do
  let hb ← pyGet node "host_blade" (.pdict [])
  let cls ← pyGet hb "blade_class" .pnone
  match cls with
  | .pnone => .error (.contextual "unable to find the host blade class")
  | c => .ok c

/-- Embeds `Common.node_host_blade` (common.py lines 261-278), statement
for statement: reject a negative instance, fetch the host blade class,
then evaluate `host_blade_class.get('host_blade', {}).get('instance_capacity', 1)`
and return `(host_blade_class, instance / instance_capacity)` where `/`
is Python 3 true division. -/
def node_host_blade (node : PyVal) (i : Int) :
    Except PyErr (PyVal × PyVal) := do
  if i < 0 then
    .error (.contextual "negative instance number")
  else
    let host_blade_class ← hostBladeClassOf node
    let hb ← pyGet host_blade_class "host_blade" (.pdict [])
    let capRaw ← pyGet hb "instance_capacity" (.pint 1)
    let cap ← pyInt capRaw
    match cap with
    | .pint c => .ok (host_blade_class, .pfloat i c)
    | _ => .error (.contextual "unreachable")

/-- A node-class dictionary whose `host_blade` section names hosting
blade class `c` with instance capacity `k`, as the cluster config
schema prescribes. -/
def mkNodeClass (c : String) (k : Int) : PyVal :=
  .pdict [("host_blade",
    .pdict [("blade_class", .pstr c), ("instance_capacity", .pint k)])]

/-! ## `KeaDHCP4.restart_server` polling loop
(deploy_cluster_to_blade.py, lines 1406-1434)

    timeout = 30
    while timeout > 0:
        with Popen(['systemctl', '--quiet', 'is-active', ...]) as cmd:
            if cmd.wait() == 0:
                return
            sleep(1)
    ... capture `systemctl status` stdout and raise ...

The loop body never changes `timeout`.  We model the oracle
`active k` as the exit status test of the `k`-th poll and take a step
per loop iteration. -/

structure PollState where
  timeout : Nat
  /-- The loop returned because the service reported active. -/
  returned : Bool
  /-- The loop exited by the guard and the code after it raised. -/
  failed : Bool
  deriving DecidableEq, Repr

/-- State of the `restart_server` polling loop after `n` evaluations of
the loop guard, given the oracle of poll outcomes. -/
def pollIter (active : Nat → Bool) : Nat → PollState
  | 0 => { timeout := 30, returned := false, failed := false }
  | n + 1 =>
      let s := pollIter active n
      if s.returned || s.failed then s
      else if s.timeout > 0 then
        if active n then { s with returned := true } else s
      else { s with failed := true }

/-! ## `VirtualNode.__make_disk` (deploy_cluster_to_blade.py, lines 890-940)

The checks, in source order:

    if not target_dev: raise ContextualError("configuration error: ...")
    if partitions and image_url: raise ContextualError("configuration error: ...")
    if not image_url and not partitions and not size:
        raise ContextualError("configuration error: ...")
    if image_url and not source_image_name:
        raise ContextualError("internal error: ...")

Python truthiness: a missing key or `None` is falsy, an empty string or
empty dict is falsy, and `0` is falsy for `disk_size_mb`. -/

inductive DiskError where
  | configNoTargetDevice
  | configBothSourceAndParts
  | configNoneOfThree
  | internalNoSourceName
  deriving DecidableEq, Repr

/-- Distinguishes the `configuration error:` raises of `__make_disk`
from its `internal error:` raise. -/
def DiskError.isConfigError : DiskError → Bool
  | .configNoTargetDevice => true
  | .configBothSourceAndParts => true
  | .configNoneOfThree => true
  | .internalNoSourceName => false

/-- Python truthiness of an optional string (missing/None/empty all falsy). -/
def truthyStr : Option String → Bool
  | none => false
  | some s => s ≠ ""

/-- Python truthiness of `disk_size_mb` (missing/None/0 falsy). -/
def truthySize : Option Nat → Bool
  | none => false
  | some n => n ≠ 0

structure DiskConfig where
  source_image : Option String
  /-- Keys of the `partitions` dict; an empty dict is falsy. -/
  partitions : List String
  disk_size_mb : Option Nat
  target_device : Option String
  deriving DecidableEq, Repr

structure DiskResult where
  file_name : String
  target_device : String
  deriving DecidableEq, Repr

/-- Embeds `VirtualNode.__make_disk`, check for check in source order,
with the disk-image construction side effects elided (they raise no
configuration errors). -/
def makeDisk (name : String) (cfg : DiskConfig)
    (source_image_name : Option String) : Except DiskError DiskResult :=
  let image_url := cfg.source_image
  let size := cfg.disk_size_mb
  let target_dev := cfg.target_device
  if ¬ truthyStr target_dev then
    .error .configNoTargetDevice
  else if ¬ cfg.partitions.isEmpty ∧ truthyStr image_url then
    .error .configBothSourceAndParts
  else if ¬ truthyStr image_url ∧ cfg.partitions.isEmpty ∧ ¬ truthySize size then
    .error .configNoneOfThree
  else if truthyStr image_url ∧ ¬ truthyStr source_image_name then
    .error .internalNoSourceName
  else
    .ok { file_name := name,
          target_device := target_dev.getD "" }

/-! ## `Cluster.__add_endpoint_ips` (cluster.py, lines 83-112)

The provider API calls `blade_classes()`, `blade_count(class)` and
`blade_ip(class, instance, interconnect)` are modelled as fields of an
abstract `VirtualBlades` value. -/

structure VirtualBlades where
  blade_classes : List String
  blade_count : String → Nat
  blade_ip : String → Nat → String → String

/-- Embeds `Cluster.__add_endpoint_ips`: `interconnectEntry` is the
`blade_interconnect` entry of the network dict (`none` when the key is
missing, which raises; `some none` when the value is null), and
`connected_blade_classes` is that optional entry.  Returns the computed
`endpoint_ips` list. -/
def addEndpointIps (vb : VirtualBlades)
    (interconnectEntry : Option (Option String))
    (connected_blade_classes : Option (List String)) :
    Except String (List String) :=
  match interconnectEntry with
  | none => .error "network configuration does not specify blade_interconnect"
  | some interconnect =>
      let blade_classes :=
        match connected_blade_classes with
        | none => vb.blade_classes
        | some bcs => bcs
      .ok (match interconnect with
        | some ic =>
            blade_classes.flatMap (fun blade_class =>
              (List.range (vb.blade_count blade_class)).map
                (fun inst => vb.blade_ip blade_class inst ic))
        | none => [])

/-- A tiny concrete provider used to instantiate hypotheses. -/
def vbEx : VirtualBlades :=
  { blade_classes := ["a", "b"],
    blade_count := fun c => if c = "a" then 2 else 1,
    blade_ip := fun _ _ _ => "x" }

/-! ## `NetworkInstaller.connect_endpoints`
(deploy_cluster_to_blade.py, lines 676-694)

Each `run_cmd` invocation is recorded as a `RunCmd` value; the function
returns the list of commands it issues, in order. -/

structure RunCmd where
  prog : String
  args : List String
  deriving DecidableEq, Repr

/-- The `bridge fdb append to 00:00:00:00:00:00 dst ip dev tunnel`
command issued for one remote endpoint. -/
def fdbAppendCmd (tunnel ip : String) : RunCmd :=
  { prog := "bridge",
    args := ["fdb", "append", "to", "00:00:00:00:00:00",
             "dst", ip, "dev", tunnel] }

/-- Embeds `NetworkInstaller.connect_endpoints`: filter the local IP
out of the endpoint list and issue one FDB append per remaining IP, in
list order. -/
def connect_endpoints (tunnel_name : String) (endpoint_ips : List String)
    (local_ip_addr : String) : List RunCmd :=
  let remote_ips := endpoint_ips.filter (fun ip => ip != local_ip_addr)
  remote_ips.map (fun ip => fdbAppendCmd tunnel_name ip)

/-! ## libvirt network handling in `main`
(deploy_cluster_to_blade.py, lines 1437-1454, 696-773)

Only the operations that touch libvirt networks are modelled here: the
state is the `self.vnets` list of existing libvirt network names, and
each `virsh net-...` invocation is recorded as an event.  The `ip` and
`bridge` commands of `construct_virtual_network` affect no libvirt
network and are elided. -/

inductive VirshCmd where
  | netDestroy (name : String)
  | netUndefine (name : String)
  | netDefine (name : String)
  | netStart (name : String)
  | netAutostart (name : String)
  deriving DecidableEq, Repr

/-- The libvirt network a `virsh net-...` command operates on. -/
def VirshCmd.target : VirshCmd → String
  | .netDestroy n => n
  | .netUndefine n => n
  | .netDefine n => n
  | .netStart n => n
  | .netAutostart n => n

/-- Embeds `NetworkInstaller.remove_virtual_network` (lines 717-726):
do nothing when the network is not in `self.vnets`, otherwise
`net-destroy` it, `net-undefine` it and drop it from `self.vnets`. -/
def remove_virtual_network (vnets : List String) (network_name : String) :
    List VirshCmd × List String :=
  if network_name ∈ vnets then
    ([.netDestroy network_name, .netUndefine network_name],
      vnets.erase network_name)
  else
    ([], vnets)

/-- Embeds `NetworkInstaller.add_virtual_network` (lines 696-715):
`net-define`, `net-start`, `net-autostart` and append to `self.vnets`. -/
def add_virtual_network (vnets : List String) (network_name : String) :
    List VirshCmd × List String :=
  ([.netDefine network_name, .netStart network_name,
    .netAutostart network_name], vnets ++ [network_name])

/-- The libvirt-network part of
`NetworkInstaller.construct_virtual_network` (lines 728-773): remove
any stale definition of the network, then add the fresh one. -/
def construct_virtual_network_vnets (vnets : List String)
    (network_name : String) : List VirshCmd × List String :=
  let r := remove_virtual_network vnets network_name
  let a := add_virtual_network r.2 network_name
  (r.1 ++ a.1, a.2)

/-- The loop `for network in networks: construct_virtual_network(...)`
of `main`, restricted to its libvirt-network effect. -/
def constructAll : List String → List String → List VirshCmd × List String
  | [], vnets => ([], vnets)
  | n :: ns, vnets =>
      let c := construct_virtual_network_vnets vnets n
      let rest := constructAll ns c.2
      (c.1 ++ rest.1, rest.2)

/-- The libvirt-network effect of `main` (lines 1437-1506): first
`network_installer.remove_virtual_network("default")`, then one
`construct_virtual_network` per configured network, in order. -/
def mainNetworkPhase (vnets0 : List String) (networkNames : List String) :
    List VirshCmd × List String :=
  let r := remove_virtual_network vnets0 "default"
  let rest := constructAll networkNames r.2
  (r.1 ++ rest.1, rest.2)

/-! ## `VirtualNode.__make_network_interface` and
`VirtualNode.__configure_netplan`
(deploy_cluster_to_blade.py, lines 1053-1103 and 988-1038)

`__make_network_interface` builds a per-interface context from the
interface's AF_INET `addr_info` (its `mode` and `addresses`), the
network's netmask length and the interface's MAC list;
`__configure_netplan` turns each context into one netplan `ethernets`
entry.  The context fields not used by netplan (`name_servers`,
`source_if`, `netname`) are omitted. -/

structure IfContext where
  ifname : String
  dhcp4 : Bool
  ipv4_addr : Option String
  ipv4_netlength : Option String
  mac_addr : String
  deriving DecidableEq, Repr

/-- Embeds `VirtualNode.__make_network_interface`:

    dhcp4 = mode in ['dynamic', 'reserved'] or instance >= len(addresses)
    ipv4_addr = addresses[instance] if instance < len(addresses) else None
    ipv4_netlen = net_length if instance < len(addresses) else None
    mac_addr = mac_addrs[instance]

(`mac_addrs[instance]` raises IndexError out of range; the model
defaults to `""` there and the theorems assume the index is in
range). -/
def makeNetworkInterface (netname mode : String) (addresses : List String)
    (net_length : String) (mac_addrs : List String) (inst : Nat) :
    IfContext :=
  { ifname := netname,
    dhcp4 := (mode == "dynamic" || mode == "reserved") ||
      decide (addresses.length ≤ inst),
    ipv4_addr := addresses[inst]?,
    ipv4_netlength :=
      if inst < addresses.length then some net_length else none,
    mac_addr := mac_addrs.getD inst "" }

structure NetplanEntry where
  addresses : List String
  dhcp6 : Bool
  dhcp4 : Bool
  macaddress : String
  deriving DecidableEq, Repr

/-- Embeds the ethernets-entry comprehension of
`VirtualNode.__configure_netplan`: the entry's address list is
`['/'.join([ipv4_addr, ipv4_netlength])]` when `ipv4_addr` is not None
and `[]` otherwise, `dhcp6` is always false, `dhcp4` and the match MAC
come from the context.  (`__make_network_interface` sets `ipv4_addr`
and `ipv4_netlength` to None together, so the mismatched cases below
are unreachable from it.) -/
def netplanEntry (c : IfContext) : NetplanEntry :=
  { addresses :=
      match c.ipv4_addr, c.ipv4_netlength with
      | some a, some nl => [a ++ "/" ++ nl]
      | _, _ => [],
    dhcp6 := false,
    dhcp4 := c.dhcp4,
    macaddress := c.mac_addr }

/-! # Theorems -/

/-- C4: `instance_range(class, b)` equals
`(min(b × capacity, node_count), min((b+1) × capacity, node_count))`;
for capacity ≥ 1 the half-open ranges of distinct blade instances are
pairwise disjoint, and every node instance `i < node_count` lies in the
range of some blade instance, so the ranges partition `[0, node_count)`. -/
theorem instance_range_partition (n k : Nat) (hk : 1 ≤ k) :
    (∀ b, instance_range n k b = (min (b * k) n, min ((b + 1) * k) n)) ∧
    (∀ b₁ b₂ i, b₁ ≠ b₂ →
      ¬(inInstanceRange n k b₁ i ∧ inInstanceRange n k b₂ i)) ∧
    (∀ i, i < n → ∃ b, inInstanceRange n k b i) := by
  have hmin : ∀ a m : Nat, (if a < m then a else m) = min a m := by
    intro a m
    rw [Nat.min_def]
    by_cases h : a < m
    · rw [if_pos h, if_pos (Nat.le_of_lt h)]
    · rw [if_neg h]
      by_cases h' : a ≤ m
      · have : a = m := Nat.le_antisymm h' (by omega)
        rw [if_pos h', this]
      · rw [if_neg h']
  have hform : ∀ b, instance_range n k b =
      (min (b * k) n, min ((b + 1) * k) n) := by
    intro b
    show ((if b * k < n then b * k else n),
      (if b * k + k < n then b * k + k else n)) = _
    have hbk : (b + 1) * k = b * k + k := by ring
    rw [hmin, hmin, hbk]
  have hmem : ∀ b i, inInstanceRange n k b i ↔
      (min (b * k) n ≤ i ∧ i < min ((b + 1) * k) n) := by
    intro b i
    unfold inInstanceRange
    rw [hform b]
  refine ⟨hform, ?_, ?_⟩
  · intro b₁ b₂ i hne hboth
    obtain ⟨h₁, h₂⟩ := hboth
    rw [hmem] at h₁ h₂
    rcases Nat.lt_or_ge b₁ b₂ with hlt | hge
    · have hmul : (b₁ + 1) * k ≤ b₂ * k := Nat.mul_le_mul_right k hlt
      omega
    · have hlt' : b₂ < b₁ := by omega
      have hmul : (b₂ + 1) * k ≤ b₁ * k := Nat.mul_le_mul_right k hlt'
      omega
  · intro i hi
    refine ⟨i / k, ?_⟩
    rw [hmem]
    have hdm := Nat.div_add_mod i k
    have hmod : i % k < k := Nat.mod_lt _ (by omega)
    have hexp : (i / k + 1) * k = i / k * k + k := by ring
    have hcm : i / k * k = k * (i / k) := Nat.mul_comm _ _
    omega

/-- Witness for `instance_range_partition` at node_count 5, capacity 2. -/
theorem instance_range_partition_witness :
    instance_range 5 2 1 = (min (1 * 2) 5, min ((1 + 1) * 2) 5) ∧
    ¬(inInstanceRange 5 2 0 2 ∧ inInstanceRange 5 2 1 2) ∧
    inInstanceRange 5 2 2 4 :=
  ⟨(instance_range_partition 5 2 (by decide)).1 1,
   (instance_range_partition 5 2 (by decide)).2.1 0 1 2 (by decide),
   by decide⟩

/-- C8 (code behaviour at the failing input): for the node class with
hosting blade class "blade" and instance capacity 2, asking for the host
blade of instance 3 does not return ("blade", 1); it raises an
`AttributeError`, because the code calls `.get` on the blade-class
string, and even that aside it would compute `3 / 2` by true division. -/
theorem node_host_blade_attribute_error :
    node_host_blade (mkNodeClass "blade" 2) 3 =
      .error (.attributeError "object has no attribute get") ∧
    node_host_blade (mkNodeClass "blade" 2) 3 ≠
      .ok (.pstr "blade", .pint 1) := by
  have h : node_host_blade (mkNodeClass "blade" 2) 3 =
      .error (.attributeError "object has no attribute get") := rfl
  refine ⟨h, ?_⟩
  rw [h]
  intro hc
  cases hc

/-- C6 refutation of "the polling loop always terminates": when the
service never reports active, the `restart_server` loop neither returns
nor reaches the status-capturing failure path after any number of
iterations, because the body never decrements `timeout`, so the guard
`timeout > 0` stays true forever. -/
theorem restart_poll_never_terminates (active : Nat → Bool)
    (h : ∀ k, active k = false) (n : Nat) :
    pollIter active n =
      { timeout := 30, returned := false, failed := false } := by
  induction n with
  | zero => rfl
  | succ n ih => simp [pollIter, ih, h n]

/-- Witness for `restart_poll_never_terminates`: after 40 polls of a
never-active service (beyond the intended 30-second bound) the loop is
still spinning. -/
theorem restart_poll_never_terminates_witness :
    pollIter (fun _ => false) 40 =
      { timeout := 30, returned := false, failed := false } :=
  restart_poll_never_terminates (fun _ => false) (fun _ => rfl) 40

/-- C9: `__make_disk` raises a configuration error exactly when the
disk config lacks a (truthy) `target_device`, or declares both a
non-empty `partitions` dict and a non-empty `source_image`, or declares
none of `source_image`, `partitions` and (non-zero) `disk_size_mb`; in
every other case no configuration error is raised (the remaining
`internal error` raise is not a configuration error). -/
theorem makeDisk_config_error_iff (name : String) (cfg : DiskConfig)
    (srcName : Option String) :
    (∃ e, makeDisk name cfg srcName = .error e ∧ e.isConfigError = true) ↔
      (truthyStr cfg.target_device = false ∨
        (cfg.partitions.isEmpty = false ∧
          truthyStr cfg.source_image = true) ∨
        (truthyStr cfg.source_image = false ∧
          cfg.partitions.isEmpty = true ∧
          truthySize cfg.disk_size_mb = false)) := by
  by_cases h1 : truthyStr cfg.target_device = true <;>
    by_cases h2 : cfg.partitions.isEmpty = true <;>
      by_cases h3 : truthyStr cfg.source_image = true <;>
        by_cases h4 : truthySize cfg.disk_size_mb = true <;>
          by_cases h5 : truthyStr srcName = true <;>
            simp [makeDisk, h1, h2, h3, h4, h5, DiskError.isConfigError]

/-- C2: for a network whose `blade_interconnect` entry is present, a
null interconnect yields an empty `endpoint_ips`; otherwise
`endpoint_ips` is the class-major, instance-ascending concatenation of
`blade_ip(class, instance, interconnect)` over the connected blade
classes (defaulting to all blade classes), and its length is the sum of
`blade_count` over those classes. -/
theorem addEndpointIps_spec (vb : VirtualBlades)
    (cbc : Option (List String)) :
    addEndpointIps vb (some none) cbc = .ok [] ∧
    (∀ ic, addEndpointIps vb (some (some ic)) cbc =
        .ok (((cbc.getD vb.blade_classes).map (fun blade_class =>
          (List.range (vb.blade_count blade_class)).map
            (fun inst => vb.blade_ip blade_class inst ic))).flatten)) ∧
    (∀ ic eps, addEndpointIps vb (some (some ic)) cbc = .ok eps →
      eps.length = ((cbc.getD vb.blade_classes).map vb.blade_count).sum) := by
  have hclasses :
      (match cbc with
        | none => vb.blade_classes
        | some bcs => bcs) = cbc.getD vb.blade_classes := by
    cases cbc <;> rfl
  refine ⟨rfl, ?_, ?_⟩
  · intro ic
    simp only [addEndpointIps, hclasses, List.flatMap_def]
  · intro ic eps heq
    simp only [addEndpointIps, hclasses] at heq
    cases heq
    simp [List.length_flatMap, Function.comp_def]

/-- Witness for `addEndpointIps_spec` on a provider with blade classes
"a" (count 2) and "b" (count 1). -/
theorem addEndpointIps_spec_witness :
    (["x", "x", "x"] : List String).length =
      ((Option.getD (none : Option (List String)) vbEx.blade_classes).map
        vbEx.blade_count).sum :=
  (addEndpointIps_spec vbEx none).2.2 "ic" ["x", "x", "x"] (by rfl)

/-- C7: on a blade whose local underlay address is a member of the
endpoint list, `connect_endpoints` issues the FDB append commands for
exactly the non-local endpoint IPs, in the order they appear in the
list, with exactly one command per remote IP and none for the local
IP. -/
theorem connect_endpoints_spec (tunnel local_ip : String)
    (E : List String) (hL : local_ip ∈ E) (hnd : E.Nodup) :
    connect_endpoints tunnel E local_ip =
      (E.filter (fun ip => ip != local_ip)).map (fdbAppendCmd tunnel) ∧
    (∀ ip ∈ E, ip ≠ local_ip →
      (connect_endpoints tunnel E local_ip).count
        (fdbAppendCmd tunnel ip) = 1) ∧
    (connect_endpoints tunnel E local_ip).count
      (fdbAppendCmd tunnel local_ip) = 0 := by
  have hinj : Function.Injective (fdbAppendCmd tunnel) := by
    intro a b hab
    have h2 := congrArg RunCmd.args hab
    simp only [fdbAppendCmd, List.cons.injEq, and_true, true_and] at h2
    exact h2
  refine ⟨rfl, ?_, ?_⟩
  · intro ip hip hne
    rw [connect_endpoints]
    rw [List.count_map_of_injective _ _ hinj]
    rw [List.count_filter (by simp [hne])]
    exact List.count_eq_one_of_mem hnd hip
  · rw [connect_endpoints]
    rw [List.count_map_of_injective _ _ hinj]
    rw [List.count_eq_zero]
    intro hmem
    have hpred := (List.mem_filter.mp hmem).2
    simp at hpred

/-- Witness for `connect_endpoints_spec` on endpoints A, B, C with
local address B. -/
theorem connect_endpoints_spec_witness :
    connect_endpoints "foo" ["A", "B", "C"] "B" =
      ((["A", "B", "C"] : List String).filter (fun ip => ip != "B")).map
        (fdbAppendCmd "foo") ∧
    (connect_endpoints "foo" ["A", "B", "C"] "B").count
      (fdbAppendCmd "foo" "A") = 1 ∧
    (connect_endpoints "foo" ["A", "B", "C"] "B").count
      (fdbAppendCmd "foo" "B") = 0 :=
  ⟨(connect_endpoints_spec "foo" "B" ["A", "B", "C"] (by decide)
      (by decide)).1,
   (connect_endpoints_spec "foo" "B" ["A", "B", "C"] (by decide)
      (by decide)).2.1 "A" (by decide) (by decide),
   (connect_endpoints_spec "foo" "B" ["A", "B", "C"] (by decide)
      (by decide)).2.2⟩

/-- Helper for C10: every command of `remove_virtual_network` targets
the removed name. -/
theorem remove_virtual_network_targets (v : List String) (n : String) :
    ∀ c ∈ (remove_virtual_network v n).1, c.target = n := by
  intro c hc
  unfold remove_virtual_network at hc
  split at hc
  · cases hc with
    | head => rfl
    | tail _ h =>
        cases h with
        | head => rfl
        | tail _ h => cases h
  · cases hc

/-- Helper for C10: every command of the construction loop targets one
of the configured network names. -/
theorem constructAll_targets (ns : List String) :
    ∀ v, ∀ c ∈ (constructAll ns v).1, c.target ∈ ns := by
  induction ns with
  | nil => intro v c hc; cases hc
  | cons n ns ih =>
      intro v c hc
      simp only [constructAll, construct_virtual_network_vnets,
        add_virtual_network] at hc
      rcases List.mem_append.mp hc with hc | hc
      · rcases List.mem_append.mp hc with hc | hc
        · exact (remove_virtual_network_targets _ _ c hc) ▸
            List.mem_cons_self n ns
        · have hct : c.target = n := by
            cases hc with
            | head => rfl
            | tail _ h =>
                cases h with
                | head => rfl
                | tail _ h =>
                    cases h with
                    | head => rfl
                    | tail _ h => cases h
          exact hct ▸ List.mem_cons_self n ns
      · exact List.mem_cons_of_mem n (ih _ c hc)

/-- C10: the blade agent's `main` starts its network phase by removing
the pre-existing libvirt network "default" when it is present (the
first two commands destroy and undefine it, before any configured
network is touched), and every libvirt network command it ever issues
targets either "default" or a configured network name, so all other
libvirt networks are left untouched. -/
theorem main_removes_default_network (vnets0 names : List String) :
    ("default" ∈ vnets0 →
      ∃ rest, (mainNetworkPhase vnets0 names).1 =
        .netDestroy "default" :: .netUndefine "default" :: rest) ∧
    (∀ c ∈ (mainNetworkPhase vnets0 names).1,
      c.target = "default" ∨ c.target ∈ names) := by
  constructor
  · intro hmem
    refine ⟨(constructAll names (vnets0.erase "default")).1, ?_⟩
    unfold mainNetworkPhase remove_virtual_network
    rw [if_pos hmem]
    rfl
  · intro c hc
    unfold mainNetworkPhase at hc
    rw [List.mem_append] at hc
    rcases hc with hc | hc
    · exact Or.inl (remove_virtual_network_targets _ _ c hc)
    · exact Or.inr (constructAll_targets names _ c hc)

/-- Witness for `main_removes_default_network` with "default" present
and one configured network. -/
theorem main_removes_default_network_witness :
    (∃ rest, (mainNetworkPhase ["default", "other"] ["net1"]).1 =
      .netDestroy "default" :: .netUndefine "default" :: rest) ∧
    ((VirshCmd.netDestroy "default").target = "default" ∨
      (VirshCmd.netDestroy "default").target ∈ ["net1"]) :=
  ⟨(main_removes_default_network ["default", "other"] ["net1"]).1
      (by decide),
   (main_removes_default_network ["default", "other"] ["net1"]).2
      (.netDestroy "default")
      (by decide)⟩

/-- C5 counterexample to the claimed dichotomy: for mode "reserved"
with an available address (instance 0, one configured address) the
generated netplan entry carries BOTH the static address and
`dhcp4: true`, so it is neither "static address with dhcp4 false" nor
"dhcp4 true with no address". -/
theorem netplan_dichotomy_counterexample :
    ¬(((netplanEntry (makeNetworkInterface "net0" "reserved" ["10.0.0.5"]
          "24" ["52:54:00:00:00:01"] 0)).dhcp4 = false ∧
        (netplanEntry (makeNetworkInterface "net0" "reserved" ["10.0.0.5"]
          "24" ["52:54:00:00:00:01"] 0)).addresses = ["10.0.0.5/24"]) ∨
      ((netplanEntry (makeNetworkInterface "net0" "reserved" ["10.0.0.5"]
          "24" ["52:54:00:00:00:01"] 0)).dhcp4 = true ∧
        (netplanEntry (makeNetworkInterface "net0" "reserved" ["10.0.0.5"]
          "24" ["52:54:00:00:00:01"] 0)).addresses = [])) := by
  decide

/-- C5 as amended: the netplan entry sets dhcp4 exactly when
mode ∈ {dynamic, reserved} or instance ≥ len(addresses); it carries the
instance's static address `addresses[instance]/netlen` exactly when
`instance < len(addresses)` (even when dhcp4 is also set) and no
address otherwise; and it always carries dhcp6 false and the instance's
MAC in match.macaddress. -/
theorem netplan_entry_spec (netname mode net_length : String)
    (addresses mac_addrs : List String) (inst : Nat)
    (hmac : inst < mac_addrs.length) :
    ((netplanEntry (makeNetworkInterface netname mode addresses
        net_length mac_addrs inst)).dhcp4 = true ↔
      (mode = "dynamic" ∨ mode = "reserved" ∨ addresses.length ≤ inst)) ∧
    (∀ h : inst < addresses.length,
      (netplanEntry (makeNetworkInterface netname mode addresses
        net_length mac_addrs inst)).addresses =
          [addresses[inst] ++ "/" ++ net_length]) ∧
    (addresses.length ≤ inst →
      (netplanEntry (makeNetworkInterface netname mode addresses
        net_length mac_addrs inst)).addresses = []) ∧
    (netplanEntry (makeNetworkInterface netname mode addresses
        net_length mac_addrs inst)).dhcp6 = false ∧
    (netplanEntry (makeNetworkInterface netname mode addresses
        net_length mac_addrs inst)).macaddress = mac_addrs[inst] := by
  refine ⟨?_, ?_, ?_, rfl, ?_⟩
  · simp only [netplanEntry, makeNetworkInterface, Bool.or_eq_true,
      beq_iff_eq, decide_eq_true_eq]
    tauto
  · intro h
    simp only [netplanEntry, makeNetworkInterface, if_pos h]
    rw [List.getElem?_eq_getElem h]
  · intro h
    have hnone : addresses[inst]? = none := List.getElem?_eq_none h
    simp only [netplanEntry, makeNetworkInterface, hnone,
      if_neg (Nat.not_lt.mpr h)]
  · simp only [netplanEntry, makeNetworkInterface]
    exact List.getD_eq_getElem mac_addrs "" hmac

/-- Witness for `netplan_entry_spec`: instance 0 of a static-mode
interface with two addresses gets the first static address. -/
theorem netplan_entry_spec_witness :
    (netplanEntry (makeNetworkInterface "net0" "static"
        ["10.0.0.5", "10.0.0.6"] "24" ["52:54:00:00:00:01"] 0)).addresses =
      ["10.0.0.5/24"] :=
  (netplan_entry_spec "net0" "static" "24" ["10.0.0.5", "10.0.0.6"]
    ["52:54:00:00:00:01"] 0 (by decide)).2.1 (by decide)

/-! ## `Cluster.__random_mac` and `Cluster.__add_mac_addresses`
(cluster.py, lines 341-398)

Strings produced by MAC formatting are modelled as lists of
characters.  `randint(0x00, 0xff)` draws are supplied by an oracle
`rand`; `"%2.2x" % octet` is modelled by `toHex2`, which agrees with
the Python format for octets up to 255 (the only octets produced:
`randint` draws and the parsed octets of the default prefix
"52:54:00"). -/

def hexChars : List Char := "0123456789abcdef".toList

/-- Lowercase hex digit of a value below 16. -/
def hexDigit (n : Nat) : Char := hexChars.getD n '0'

/-- Two lowercase hex digits: the Python `"%2.2x" % n` for `n ≤ 255`. -/
def toHex2 (n : Nat) : List Char := [hexDigit (n / 16), hexDigit (n % 16)]

/-- Python `":".join(groups)` on character-list strings. -/
def joinColon : List (List Char) → List Char
  | [] => []
  | [g] => g
  | g :: gs => g ++ ':' :: joinColon gs

/-- Embeds `Cluster.__random_mac()` at the default prefix "52:54:00",
whose parsed octet list is `[0x52, 0x54, 0x00]`: append `6 - 3` random
octets and colon-join the two-digit hex renderings. -/
def pyRandomMac (rand : Nat → Nat) : List Char :=
  let prefix_octets := [0x52, 0x54, 0x00]
  let mac_binary := prefix_octets ++
    (List.range (6 - prefix_octets.length)).map rand
  joinColon (mac_binary.map toHex2)

/-- Embeds the per-interface body of `Cluster.__add_mac_addresses`:
truncate the existing `layer_2.addresses` list to `node_count` entries
and extend it with fresh random MACs up to `node_count`.  `rand i` is
the draw oracle used for the `i`-th generated address. -/
def addMacAddresses (rand : Nat → Nat → Nat) (node_count : Nat)
    (existing : List (List Char)) : List (List Char) :=
  let existing_macs := existing.take node_count
  existing_macs ++
    (List.range (node_count - existing_macs.length)).map
      (fun i => pyRandomMac (rand i))

/-- Splits a character-list string at every colon (the inverse of
`joinColon` for colon-free groups), used by the syntactic MAC
validity check. -/
def splitColon : List Char → List (List Char)
  | [] => [[]]
  | c :: rest =>
      if c = ':' then [] :: splitColon rest
      else
        match splitColon rest with
        | [] => [[c]]
        | g :: gs => (c :: g) :: gs

/-- A two-character group of hex digits. -/
def isHexPair : List Char → Bool
  | [c1, c2] => decide (c1 ∈ hexChars) && decide (c2 ∈ hexChars)
  | _ => false

/-- Syntactic validity of a six-octet colon-separated MAC string:
exactly six colon-separated groups, each two hex digits. -/
def isValidMac (s : List Char) : Bool :=
  let gs := splitColon s
  gs.length == 6 && gs.all isHexPair

/-- Splitting consumes a colon-free group up to the first separator. -/
theorem splitColon_group_colon (g l : List Char) (hg : ':' ∉ g) :
    splitColon (g ++ ':' :: l) = g :: splitColon l := by
  induction g with
  | nil => simp [splitColon]
  | cons c g ih =>
      have hc : c ≠ ':' := by
        intro h; exact hg (h ▸ List.mem_cons_self c g)
      have hg' : ':' ∉ g := fun h => hg (List.mem_cons_of_mem c h)
      simp only [List.cons_append, splitColon, if_neg hc, List.append_eq]
      rw [ih hg']

/-- Splitting a colon-free string yields that single group. -/
theorem splitColon_no_colon (g : List Char) (hg : ':' ∉ g) :
    splitColon g = [g] := by
  induction g with
  | nil => rfl
  | cons c g ih =>
      have hc : c ≠ ':' := by
        intro h; exact hg (h ▸ List.mem_cons_self c g)
      have hg' : ':' ∉ g := fun h => hg (List.mem_cons_of_mem c h)
      simp only [splitColon, if_neg hc, ih hg']

/-- Splitting inverts joining for nonempty lists of colon-free groups. -/
theorem splitColon_joinColon (gs : List (List Char)) (hne : gs ≠ [])
    (hg : ∀ g ∈ gs, ':' ∉ g) : splitColon (joinColon gs) = gs := by
  induction gs with
  | nil => exact absurd rfl hne
  | cons g gs ih =>
      cases gs with
      | nil =>
          exact splitColon_no_colon g (hg g (List.mem_cons_self g []))
      | cons g2 gs2 =>
          have hgg : ':' ∉ g := hg g (List.mem_cons_self g (g2 :: gs2))
          have hrest : ∀ x ∈ g2 :: gs2, ':' ∉ x :=
            fun x hx => hg x (List.mem_cons_of_mem g hx)
          show splitColon (g ++ ':' :: joinColon (g2 :: gs2)) = _
          rw [splitColon_group_colon _ _ hgg,
            ih (by intro h; cases h) hrest]

/-- Every value `hexDigit` produces is a hex-digit character. -/
theorem hexDigit_mem (n : Nat) : hexDigit n ∈ hexChars := by
  unfold hexDigit
  by_cases h : n < hexChars.length
  · rw [List.getD_eq_getElem hexChars '0' h]
    exact List.getElem_mem h
  · rw [List.getD_eq_default hexChars '0' (Nat.le_of_not_lt h)]
    decide

/-- A `toHex2` group never contains a colon. -/
theorem toHex2_no_colon (n : Nat) : ':' ∉ toHex2 n := by
  intro h
  have hcolon : (':' : Char) ∉ hexChars := by decide
  rcases List.mem_cons.mp h with h1 | h1
  · exact hcolon (h1 ▸ hexDigit_mem (n / 16))
  · rcases List.mem_cons.mp h1 with h2 | h2
    · exact hcolon (h2 ▸ hexDigit_mem (n % 16))
    · cases h2

/-- A `toHex2` group is a valid hex pair. -/
theorem toHex2_isHexPair (n : Nat) : isHexPair (toHex2 n) = true := by
  simp only [toHex2, isHexPair, Bool.and_eq_true, decide_eq_true_eq]
  exact ⟨hexDigit_mem _, hexDigit_mem _⟩

/-- The groups of a generated MAC are the hex renderings of its six
octets. -/
theorem splitColon_pyRandomMac (rand : Nat → Nat) :
    splitColon (pyRandomMac rand) =
      [toHex2 0x52, toHex2 0x54, toHex2 0x00,
       toHex2 (rand 0), toHex2 (rand 1), toHex2 (rand 2)] := by
  show splitColon (joinColon
    ([0x52, 0x54, 0x00, rand 0, rand 1, rand 2].map toHex2)) = _
  rw [splitColon_joinColon]
  · rfl
  · intro h; cases h
  · intro g hgmem
    simp only [List.map_cons, List.map_nil, List.mem_cons,
      List.not_mem_nil, or_false] at hgmem
    rcases hgmem with h | h | h | h | h | h <;>
      exact h ▸ toHex2_no_colon _

/-- A generated MAC is syntactically valid with first octet group
"52", second "54", third "00". -/
theorem pyRandomMac_valid (rand : Nat → Nat) :
    isValidMac (pyRandomMac rand) = true ∧
    (splitColon (pyRandomMac rand)).take 3 =
      [['5', '2'], ['5', '4'], ['0', '0']] := by
  constructor
  · simp [isValidMac, splitColon_pyRandomMac, toHex2_isHexPair]
  · rw [splitColon_pyRandomMac]
    rfl

/-- C3: after planning, an interface's layer_2 address list keeps the
first node_count pre-existing MACs unchanged and in order, has length
at least node_count, and every newly generated entry is the colon-join
of six two-digit hex octets, syntactically valid, with first three
octet groups 52, 54, 00. -/
theorem addMacAddresses_spec (rand : Nat → Nat → Nat) (node_count : Nat)
    (existing : List (List Char)) :
    (addMacAddresses rand node_count existing).take
        (existing.take node_count).length = existing.take node_count ∧
    node_count ≤ (addMacAddresses rand node_count existing).length ∧
    (∀ m ∈ (addMacAddresses rand node_count existing).drop
        (existing.take node_count).length,
      ∃ i, m = pyRandomMac (rand i) ∧ isValidMac m = true ∧
        (splitColon m).take 3 = [['5', '2'], ['5', '4'], ['0', '0']]) := by
  refine ⟨?_, ?_, ?_⟩
  · simp only [addMacAddresses]
    exact List.take_left _ _
  · simp only [addMacAddresses, List.length_append, List.length_map,
      List.length_range, List.length_take]
    omega
  · intro m hm
    simp only [addMacAddresses, List.drop_left] at hm
    rcases List.mem_map.mp hm with ⟨i, _, hmi⟩
    exact ⟨i, hmi.symm, hmi ▸ (pyRandomMac_valid (rand i)).1,
      hmi ▸ (pyRandomMac_valid (rand i)).2⟩

/-- Witness for `addMacAddresses_spec`: node_count 2 over one existing
MAC and the constant draw 0xab; the one generated address is
52:54:00:ab:ab:ab. -/
theorem addMacAddresses_spec_witness :
    ∃ i : Nat, (['5', '2', ':', '5', '4', ':', '0', '0', ':',
           'a', 'b', ':', 'a', 'b', ':', 'a', 'b'] : List Char) =
        pyRandomMac (fun _ => (171 : Nat)) ∧
      isValidMac ['5', '2', ':', '5', '4', ':', '0', '0', ':',
                  'a', 'b', ':', 'a', 'b', ':', 'a', 'b'] = true ∧
      (splitColon ['5', '2', ':', '5', '4', ':', '0', '0', ':',
                   'a', 'b', ':', 'a', 'b', ':', 'a', 'b']).take 3 =
        [['5', '2'], ['5', '4'], ['0', '0']] :=
  (addMacAddresses_spec (fun _ _ => 171) 2 [['a', 'a']]).2.2
    ['5', '2', ':', '5', '4', ':', '0', '0', ':',
     'a', 'b', ':', 'a', 'b', ':', 'a', 'b']
    (by decide)

/-! ## `Cluster.__add_host_blade_net` (cluster.py, lines 247-317)

IPv4 addresses are modelled as `Nat`.  `IPv4Network(cidr).hosts()` is
the ascending list of usable host addresses `base+1, ..., base+numHosts`
(254 of them for a /24).  The code takes the first
`cluster_node_count + 1` of them, reverses the list, pops the blade IP,
builds the `connected_blades` entries from it, then pops
`node_count` addresses per node class in class order.  Popping `n`
times from the end of a Python list is `popN`. -/

def usableHosts (base numHosts : Nat) : List Nat :=
  (List.range numHosts).map (fun i => base + 1 + i)

/-- Pops `n` elements off the end of a list (Python `list.pop()` n
times); returns them in pop order together with the remaining list.
(Python raises IndexError when the list runs out; here the pops simply
stop, and the theorems assume enough hosts.) -/
def popN : List Nat → Nat → List Nat × List Nat
  | l, 0 => ([], l)
  | l, n + 1 =>
      match l.getLast? with
      | none => ([], l)
      | some x =>
          let p := popN l.dropLast n
          (x :: p.1, p.2)

/-- The per-node-class allocation loop: for each class count in order,
pop that many addresses. -/
def allocClasses : List Nat → List Nat → List (List Nat) × List Nat
  | [], hosts => ([], hosts)
  | c :: cs, hosts =>
      let p := popN hosts c
      let rest := allocClasses cs p.2
      (p.1 :: rest.1, rest.2)

/-- Splits a list into consecutive chunks of the given sizes
(specification-side description of sequential allocation). -/
def chunksOf : List Nat → List Nat → List (List Nat)
  | [], _ => []
  | c :: cs, ys => ys.take c :: chunksOf cs (ys.drop c)

structure ConnectedBlade where
  blade_class : String
  blade_instances : List Nat
  blade_ips : List Nat
  deriving DecidableEq, Repr

structure HostBladePlan where
  blade_ip : Nat
  connected_blades : List ConnectedBlade
  class_addresses : List (List Nat)
  deriving DecidableEq, Repr

/-- Embeds the IP-allocation core of `Cluster.__add_host_blade_net`:
`node_counts` are the `node_count` values of the node classes in
iteration order, `blade_classes`/`blade_count` come from the provider.
Returns the popped blade IP, the synthesized `connected_blades` list of
the AF_INET l3_config, and each class's allocated static address list
(the `addresses` of its synthetic host-blade interface), in class
order. -/
def addHostBladeNet (base numHosts : Nat) (blade_classes : List String)
    (blade_count : String → Nat) (node_counts : List Nat) :
    Option HostBladePlan :=
  let hosts := (usableHosts base numHosts).take (node_counts.sum + 1)
  let rhosts := hosts.reverse
  match rhosts.getLast? with
  | none => none
  | some bip =>
      let remaining := rhosts.dropLast
      let connected := blade_classes.map (fun bc =>
        { blade_class := bc,
          blade_instances := List.range (blade_count bc),
          blade_ips := List.replicate (blade_count bc) bip
          : ConnectedBlade })
      let alloc := allocClasses node_counts remaining
      some { blade_ip := bip, connected_blades := connected,
             class_addresses := alloc.1 }

/-- Popping `n` times from the end of a reversed list takes the first
`n` elements of the original, in original order. -/
theorem popN_reverse (n : Nat) : ∀ ys : List Nat,
    popN ys.reverse n = (ys.take n, (ys.drop n).reverse) := by
  induction n with
  | zero => intro ys; simp [popN]
  | succ n ih =>
      intro ys
      cases ys with
      | nil => simp [popN]
      | cons a ys =>
          rw [List.reverse_cons]
          simp only [popN, List.getLast?_concat, List.dropLast_concat,
            ih ys]
          rfl

/-- Sequential per-class popping from the reversed host list chunks
the original list in order. -/
theorem allocClasses_reverse : ∀ (cs : List Nat) (ys : List Nat),
    allocClasses cs ys.reverse = (chunksOf cs ys, (ys.drop cs.sum).reverse) := by
  intro cs
  induction cs with
  | nil => intro ys; simp [allocClasses, chunksOf]
  | cons c cs ih =>
      intro ys
      simp only [allocClasses, popN_reverse, ih (ys.drop c), chunksOf,
        List.drop_drop, List.sum_cons]

/-- The first `k+1` usable hosts are `base+1` followed by
`base+2, ..., base+k+1` when the CIDR has at least `k+1` usable
hosts. -/
theorem hosts_take_eq (base numHosts k : Nat) (h : k + 1 ≤ numHosts) :
    (usableHosts base numHosts).take (k + 1) =
      (base + 1) :: (List.range k).map (fun i => base + 2 + i) := by
  have hfun : ((fun i => base + 1 + i) ∘ Nat.succ) =
      (fun i => base + 2 + i) := by
    funext i
    simp only [Function.comp_apply]
    omega
  unfold usableHosts
  rw [← List.map_take, List.take_range, Nat.min_eq_left h,
    List.range_succ_eq_map, List.map_cons, List.map_map, hfun]

/-- C1 as amended: with enough usable hosts, planning pops the FIRST
usable host (`base+1`, the '.1' address) as the shared blade IP, every
synthesized `connected_blades` entry carries one copy of that same
address per blade instance, and the node classes' static address lists
are the SUCCESSIVE usable hosts `base+2, base+3, ...` allocated in
ascending order, chunked per class in class order (not in descending
tail order). -/
theorem addHostBladeNet_spec (base numHosts : Nat) (bcs : List String)
    (bcount : String → Nat) (counts : List Nat)
    (hfit : counts.sum + 1 ≤ numHosts) :
    ∃ plan, addHostBladeNet base numHosts bcs bcount counts = some plan ∧
      plan.blade_ip = base + 1 ∧
      plan.connected_blades = bcs.map (fun bc =>
        { blade_class := bc,
          blade_instances := List.range (bcount bc),
          blade_ips := List.replicate (bcount bc) (base + 1)
          : ConnectedBlade }) ∧
      plan.class_addresses =
        chunksOf counts
          ((List.range counts.sum).map (fun i => base + 2 + i)) := by
  have hys := hosts_take_eq base numHosts counts.sum hfit
  have hsome : addHostBladeNet base numHosts bcs bcount counts =
      some { blade_ip := base + 1,
             connected_blades := bcs.map (fun bc =>
               { blade_class := bc,
                 blade_instances := List.range (bcount bc),
                 blade_ips := List.replicate (bcount bc) (base + 1)
                 : ConnectedBlade }),
             class_addresses := chunksOf counts
               ((List.range counts.sum).map (fun i => base + 2 + i)) } := by
    simp only [addHostBladeNet, hys, List.reverse_cons,
      List.getLast?_concat, List.dropLast_concat, allocClasses_reverse]
  exact ⟨_, hsome, rfl, rfl, rfl⟩

/-- C1 counterexample to the claimed tail-order: for CIDR 10.255.0.0/24
(base 184483840, 254 usable hosts) and one node class of count 4, the
synthesized static addresses are 10.255.0.2, 10.255.0.3, 10.255.0.4,
10.255.0.5 in ascending order, not 10.255.0.5, 10.255.0.4, 10.255.0.3,
10.255.0.2 as the claim states. -/
theorem host_blade_addresses_counterexample :
    (addHostBladeNet 184483840 254 ["blade"] (fun _ => 4) [4]).map
        (fun p => p.class_addresses) =
      some [[184483842, 184483843, 184483844, 184483845]] ∧
    (addHostBladeNet 184483840 254 ["blade"] (fun _ => 4) [4]).map
        (fun p => p.class_addresses) ≠
      some [[184483845, 184483844, 184483843, 184483842]] := by
  constructor
  · decide
  · decide

/-- Witness for `addHostBladeNet_spec` at the 10.255.0.0/24 example
with one node class of count 4. -/
theorem addHostBladeNet_spec_witness :
    ∃ plan, addHostBladeNet 184483840 254 ["blade"] (fun _ => 4) [4] =
        some plan ∧
      plan.blade_ip = 184483840 + 1 ∧
      plan.connected_blades = (["blade"] : List String).map (fun bc =>
        { blade_class := bc,
          blade_instances := List.range 4,
          blade_ips := List.replicate 4 (184483840 + 1)
          : ConnectedBlade }) ∧
      plan.class_addresses =
        chunksOf [4]
          ((List.range (([4] : List Nat).sum)).map
            (fun i => 184483840 + 2 + i)) :=
  addHostBladeNet_spec 184483840 254 ["blade"] (fun _ => 4) [4] (by decide)
